import Mathlib

/-!
Verification of the phogg photo-processing pipeline (`src/photo_processor.py`).

The Python module is shallowly embedded: pure functions become Lean
functions, filesystem and imaging effects (pathlib, `filetype`, PIL)
become explicit data threaded through the pipeline, and every fallible
operation returns `Except Err _` (a raised Python exception is an
`Except.error`).  Real (float) arithmetic is modelled exactly over `ℚ`,
and Python's `int()` truncation of a nonnegative value is the floor.
-/

namespace Phogg

/-! ### Paths

A pathlib `Path` is modelled as its list of components, root first.
`p / c` is `p ++ [c]`; `p.name` is the last component. -/

abbrev FsPath := List String

/-- `Path.name`: the final component of the path (empty for the empty path). -/
def FsPath.name (p : FsPath) : String := (p.getLast?).getD ""

/-- The characters Python's `str.strip()` removes (ASCII whitespace). -/
def isPySpace (c : Char) : Bool :=
  c == ' ' || c == '\t' || c == '\n' || c == '\r' || c == '\x0b' || c == '\x0c'

/-- Python's `str.strip()`: drop leading and trailing whitespace. -/
def pyStrip (s : String) : String :=
  String.mk (((s.toList.dropWhile isPySpace).reverse.dropWhile isPySpace).reverse)

/-- The stem of one path component: everything before the last dot, the
whole name when there is no dot or when only a leading dot (pathlib
treats names such as `.bashrc` as having no extension). -/
def nameStem (s : String) : String :=
  let cs := s.toList
  let pre := ((cs.reverse.dropWhile (fun c => c ≠ '.')).drop 1).reverse
  if cs.contains '.' && pre ≠ [] then String.mk pre else s

/-- `Path.with_suffix`: rewrite the extension of the final component. -/
def FsPath.withSuffix (p : FsPath) (ext : String) : FsPath :=
  p.dropLast ++ [nameStem (FsPath.name p) ++ ext]

/-- Lexicographic order on strings by Unicode code point — the order
Python's `str` comparison (hence `list.sort(key=str)`) uses. -/
def charListLe : List Char → List Char → Bool
  | [], _ => true
  | _ :: _, [] => false
  | a :: as, b :: bs =>
    if a.toNat < b.toNat then true
    else if b.toNat < a.toNat then false
    else charListLe as bs

def pyStrLe (a b : String) : Bool := charListLe a.toList b.toList

/-- Python's `str.lower()` on ASCII format names. -/
def pyLower (s : String) : String := String.mk (s.toList.map Char.toLower)

/-! ### Exact model of Python float arithmetic on image geometry -/

/-- Python's `int()` applied to a nonnegative real value: truncation
towards zero, i.e. the floor.  The float arithmetic of the source is
modelled exactly over `ℚ`. -/
def pyTruncNat (q : ℚ) : ℕ := (⌊q⌋).toNat

/-! ### Module constants (`photo_processor.py`, lines 12–14) -/

def SUPPORTED_INPUT_TYPES : List String := ["image/jpeg"]

def SUPPORTED_OUTPUT_TYPES : List String := ["JPEG", "WEBP"]

def TARGET_RESOLUTIONS : List (ℕ × ℕ) := [(1920, 1080), (1280, 720), (640, 360), (320, 180)]

abbrev Size := ℕ × ℕ

/-! ### The filesystem/PIL world visible to the pipeline -/

/-- Pixel dimensions of a decoded PIL image. -/
structure ImageData where
  width : ℕ
  height : ℕ
  deriving DecidableEq

/-- State of the sidecar text file `source.with_suffix(".txt")`. -/
inductive SidecarState where
  /-- no such file (or not a regular file): `is_file()` is false -/
  | absent : SidecarState
  /-- the file exists but `open`/`readlines` raises -/
  | unreadable : SidecarState
  /-- the file exists; these are the lines `readlines()` returns
      (each still carrying its trailing newline, as in Python) -/
  | lines : List String → SidecarState
  deriving DecidableEq

/-- One directory entry of the source directory, together with
everything the pipeline can observe about it. -/
structure SrcEntry where
  /-- basename of the entry -/
  name : String
  /-- `path.is_file()` -/
  isFile : Bool
  /-- whether `open(path)` succeeds -/
  readable : Bool
  /-- leading bytes of the file content (magic numbers) -/
  content : List ℕ
  /-- the sidecar `path.with_suffix(".txt")` -/
  sidecar : SidecarState
  /-- `some img` when the content decodes as an image of that size,
      `none` when PIL raises on it -/
  image : Option ImageData
  /-- raw EXIF tag table of the image: numeric tag code to value -/
  exif : List (ℕ × String)
  /-- whether re-encoding (`Image.save`) succeeds -/
  encodeOk : Bool
  deriving DecidableEq

/-- Python exceptions that the pipeline can raise. -/
inductive Err where
  /-- `iterdir()` on an unreadable or nonexistent source directory -/
  | discovery : Err
  /-- `open()` inside `filetype.guess` on a non-file or unreadable entry -/
  | osOpen : Err
  /-- sidecar file present but unreadable -/
  | sidecarRead : Err
  /-- PIL fails to decode the image -/
  | decode : Err
  /-- re-encoding/saving a rendition fails -/
  | encode : Err
  /-- the `assert output_format in SUPPORTED_OUTPUT_TYPES` fails -/
  | assertionFailed : Err
  /-- `destination_dirs[max_width]` misses its key -/
  | keyLookup : Err
  deriving DecidableEq

/-! ### ImageClassifier (`is_image`, `find_photos`) -/

/-- Does the byte list start with the given magic signature? -/
def bytesStartWith : List ℕ → List ℕ → Bool
  | _, [] => true
  | [], _ :: _ => false
  | b :: bs, m :: ms => b == m && bytesStartWith bs ms

def jpegMagic : List ℕ := [0xFF, 0xD8, 0xFF]

def pngMagic : List ℕ := [0x89, 0x50, 0x4E, 0x47]

/-- Content sniffing of the `filetype` library: match the leading bytes
against the signature registry and return the mime type.  Only the
signatures relevant here are spelled out; everything else sniffs as
unknown (`none`). -/
def sniffMime (bs : List ℕ) : Option String :=
  if bytesStartWith bs jpegMagic then some "image/jpeg"
  else if bytesStartWith bs pngMagic then some "image/png"
  else none

/-- Model of `filetype.guess(path)`: opens the file and sniffs its
leading bytes.  `open()` raises an `OSError` on a non-file or
unreadable entry, and `guess` does not catch it. -/
def filetype_guess (e : SrcEntry) : Except Err (Option String) :=
  if e.isFile && e.readable then Except.ok (sniffMime e.content)
  else Except.error Err.osOpen

/-- `is_image` (lines 77–83): true iff `filetype.guess` identifies the
content and its mime is among the supported input types. -/
def is_image (e : SrcEntry) : Except Err Bool := do
  let kind ← filetype_guess e
  let supported_types := ["image/jpeg"]
  pure (match kind with
        | none => false
        | some mime => supported_types.contains mime)

/-- `find_photos` (lines 85–90) over the entries `iterdir()` yields;
`none` models a source directory whose `iterdir()` raises.  The list
comprehension keeps regular files whose content sniffs as a supported
image, and propagates any exception `is_image` raises. -/
def find_photos_list : List SrcEntry → Except Err (List SrcEntry)
  | [] => Except.ok []
  | p :: rest => do
    let keep ← if p.isFile then is_image p else pure false
    let l ← find_photos_list rest
    pure (if keep then p :: l else l)

def find_photos : Option (List SrcEntry) → Except Err (List SrcEntry)
  | none => Except.error Err.discovery
  | some entries => find_photos_list entries

/-! ### Resizer (`is_landscape_orientation`, `get_limited_size`) -/

/-- `is_landscape_orientation` (lines 92–94). -/
def is_landscape_orientation (image : ImageData) : Bool :=
  image.width > image.height

/-- `get_limited_size` (lines 96–104), with the float arithmetic of the
source carried out exactly in `ℚ`. -/
def get_limited_size (image : ImageData) (max_size : Size) : Size :=
  let width := max_size.1
  let height := max_size.2
  let aspect : ℚ := (image.width : ℚ) / (image.height : ℚ)
  if is_landscape_orientation image then
    (width, pyTruncNat ((width : ℚ) / aspect))
  else
    (pyTruncNat ((height : ℚ) * aspect), height)

/-! ### One rendition (`resize_image`) -/

/-- `resize_image` (lines 106–122).  The assertion is a raised
`AssertionError` when it fails; `Image.open` raises when the entry does
not decode; `Image.save` raises when encoding fails.  The model
returns the written path together with the pixel size of the saved
rendition (the encoded bytes themselves are not modelled). -/
def resize_image (e : SrcEntry) (target : FsPath) (max_size : Size)
    (output_format : String) (_quality : ℕ) : Except Err (FsPath × Size) :=
  if SUPPORTED_OUTPUT_TYPES.contains output_format then
    let new_name := FsPath.withSuffix target ("." ++ pyLower output_format)
    match e.image with
    | none => Except.error Err.decode
    | some image =>
      let new_size := get_limited_size image max_size
      if e.encodeOk then Except.ok (new_name, new_size)
      else Except.error Err.encode
  else Except.error Err.assertionFailed

/-! ### Output directories (`create_image_directories`) -/

/-- `create_image_directories` (lines 124–135).  Returns the list of
directories `mkdir` creates, in creation order, and the width → directory
record `dict(zip(max_widths, target_dirs))`. -/
def create_image_directories (destination_dir : FsPath) :
    List FsPath × List (ℕ × FsPath) :=
  let image_dir := destination_dir ++ ["img"]
  let max_widths := TARGET_RESOLUTIONS.map Prod.fst
  let target_dirs := max_widths.map (fun width => image_dir ++ [toString width])
  (target_dirs, max_widths.zip target_dirs)

/-! ### RenditionSet (`resize_images`) -/

/-- Body of the `for max_width, max_height in TARGET_RESOLUTIONS` loop of
`resize_images` (lines 137–152): the target is
`destination_dirs[max_width] / source.name` where `source` is the Path
argument of `resize_images`.  Collects the writes in loop order. -/
def resize_images_loop (e : SrcEntry) (source : FsPath)
    (destination_dirs : List (ℕ × FsPath))
    (output_format : String) (output_quality : ℕ) :
    List (ℕ × ℕ) → Except Err (List (FsPath × Size))
  | [] => Except.ok []
  | (max_width, max_height) :: rest => do
    let dir ← match destination_dirs.lookup max_width with
              | some d => pure d
              | none => Except.error Err.keyLookup
    let target := dir ++ [FsPath.name source]
    let w ← resize_image e target (max_width, max_height) output_format output_quality
    let ws ← resize_images_loop e source destination_dirs output_format output_quality rest
    pure (w :: ws)

/-- `resize_images` (lines 137–152). -/
def resize_images (e : SrcEntry) (source : FsPath)
    (destination_dirs : List (ℕ × FsPath))
    (output_format : String) (output_quality : ℕ) :
    Except Err (List (FsPath × Size)) :=
  resize_images_loop e source destination_dirs output_format output_quality
    TARGET_RESOLUTIONS

/-! ### MetadataReader (`read_exif`, `read_description_file`) -/

/-- Model of PIL's `ExifTags.TAGS` registry of numeric tag codes and
their names, restricted to a representative fixed fragment. -/
def ExifTags_TAGS : List (ℕ × String) :=
  [(271, "Make"), (272, "Model"), (274, "Orientation"), (306, "DateTime")]

/-- `read_exif` (lines 154–161): `Image.open` raises when the entry does
not decode; otherwise the raw tag table is filtered to the codes known
to the registry and the codes are replaced by their names. -/
def read_exif (e : SrcEntry) : Except Err (List (String × String)) :=
  match e.image with
  | none => Except.error Err.decode
  | some _ =>
    Except.ok ((e.exif.filter (fun kv => (ExifTags_TAGS.lookup kv.1).isSome)).map
      (fun kv => ((ExifTags_TAGS.lookup kv.1).getD "", kv.2)))

/-- `read_description_file` (lines 163–174), applied to the state of the
sidecar `photo_path.with_suffix(".txt")`: a missing file yields
`(None, None)`; a present file yields its first line stripped when there
is one (else `None`) and its second line stripped when there is one
(else `None`). -/
def read_description_file (s : SidecarState) :
    Except Err (Option String × Option String) :=
  match s with
  | SidecarState.absent => Except.ok (none, none)
  | SidecarState.unreadable => Except.error Err.sidecarRead
  | SidecarState.lines ls =>
    let title := match ls with
                 | [] => none
                 | l :: _ => some (pyStrip l)
    let description := match ls with
                       | _ :: l :: _ => some (pyStrip l)
                       | _ => none
    Except.ok (title, description)

/-! ### PhotoRecord (`Photo`) -/

/-- The `Photo` container (lines 21–74). -/
structure Photo where
  title : Option String
  description : Option String
  /-- the `paths` dict, as the insertion-ordered association list -/
  paths : List (ℕ × FsPath)
  exif : List (String × String)
  deriving DecidableEq

/-- `Photo._sizes`: `list(self._paths.keys())` sorted ascending
(`list.sort` is a stable ascending sort). -/
def Photo.sizes (p : Photo) : List ℕ :=
  (p.paths.map Prod.fst).insertionSort (· ≤ ·)

/-- `Photo.default_size`: `self.sizes[0]` (the pipeline never builds an
empty paths dict; the default value covers the empty case). -/
def Photo.default_size (p : Photo) : ℕ := p.sizes.headD 0

/-- `Photo.path`: `self._paths[self.default_size]`. -/
def Photo.path (p : Photo) : FsPath :=
  (p.paths.lookup p.default_size).getD []

/-- `Photo.file_name`: `self.path.name`. -/
def Photo.file_name (p : Photo) : String := FsPath.name p.path

/-- `Photo.__str__`: the sort key `str(photo)` used by the pipeline. -/
def Photo.toStr (p : Photo) : String := p.file_name

/-! ### PipelineOrchestrator (`process_photos`) -/

/-- Body of the `for source in find_photos(source_dir)` loop of
`process_photos` (lines 202–209) for one source: read the sidecar, read
EXIF, write all renditions — note the call
`resize_images(file, source_dir, destination_dirs, ...)` passes the
source *directory* as the `source` path — and build the `Photo`, whose
`paths` argument is the shared `destination_dirs` record. -/
def process_one (source_dir : FsPath) (destination_dirs : List (ℕ × FsPath))
    (output_format : String) (output_quality : ℕ) (source : SrcEntry) :
    Except Err (List (FsPath × Size) × Photo) := do
  let td ← read_description_file source.sidecar
  let exif_data ← read_exif source
  let ws ← resize_images source source_dir destination_dirs output_format output_quality
  pure (ws, { title := td.1, description := td.2,
              paths := destination_dirs, exif := exif_data })

/-- The discovery loop of `process_photos`: processes the sources in
order, accumulating the rendition writes, and aborts on the first
exception (writes already performed persist). -/
def process_loop (source_dir : FsPath) (destination_dirs : List (ℕ × FsPath))
    (output_format : String) (output_quality : ℕ) :
    List SrcEntry → List (FsPath × Size) × Except Err (List Photo)
  | [] => ([], Except.ok [])
  | s :: rest =>
    match process_one source_dir destination_dirs output_format output_quality s with
    | Except.error e => ([], Except.error e)
    | Except.ok (ws, photo) =>
      let (ws2, r) := process_loop source_dir destination_dirs output_format
        output_quality rest
      (ws ++ ws2, r.map (fun ps => photo :: ps))

/-- `photos.sort(key=str)` (line 211): a stable ascending sort by the
string key; insertion sort with `≤` on the keys is that stable sort. -/
def sortPhotos (photos : List Photo) : List Photo :=
  photos.insertionSort (fun a b => pyStrLe a.toStr b.toStr)

deriving instance DecidableEq for Except

/-- Externally visible outcome of one `process_photos` run. -/
structure RunResult where
  /-- directories created by `create_image_directories`, in order -/
  created_dirs : List FsPath
  /-- rendition files written, in order, with their pixel sizes -/
  writes : List (FsPath × Size)
  /-- the returned photo list, or the exception that aborted the run -/
  result : Except Err (List Photo)
  deriving DecidableEq

/-- `process_photos` (lines 189–213).  `source_entries` is what
`source_dir.iterdir()` yields (`none` when it raises).  The output
directories are created first, then discovery runs, then each source is
processed in discovery order, and finally the photos are sorted by
`str(photo)`. -/
def process_photos (source_dir : FsPath) (source_entries : Option (List SrcEntry))
    (destination_dir : FsPath) (output_format : String) (output_quality : ℕ) :
    RunResult :=
  let (created, destination_dirs) := create_image_directories destination_dir
  match find_photos source_entries with
  | Except.error e => { created_dirs := created, writes := [], result := Except.error e }
  | Except.ok sources =>
    let (ws, r) := process_loop source_dir destination_dirs output_format
      output_quality sources
    { created_dirs := created, writes := ws,
      result := r.map sortPhotos }

/-! ## Reduction lemmas for the `Except` monad -/

theorem except_bind_ok {ε α β : Type} (a : α) (f : α → Except ε β) :
    (Except.ok a >>= f : Except ε β) = f a := rfl

theorem except_bind_error {ε α β : Type} (e : ε) (f : α → Except ε β) :
    (Except.error e >>= f : Except ε β) = Except.error e := rfl

theorem except_pure_eq {ε α : Type} (a : α) :
    (pure a : Except ε α) = Except.ok a := rfl

theorem except_map_ok {ε α β : Type} (f : α → β) (a : α) :
    (Except.ok a : Except ε α).map f = Except.ok (f a) := rfl

theorem except_map_error {ε α β : Type} (f : α → β) (e : ε) :
    (Except.error e : Except ε α).map f = (Except.error e : Except ε β) := rfl

/-! ## Arithmetic bridge: the exact `ℚ` geometry reduces to `ℕ` division -/

theorem pyTruncNat_cast_div (n m : ℕ) :
    pyTruncNat ((n : ℚ) / (m : ℚ)) = n / m := by
  unfold pyTruncNat
  rw [show ((n : ℚ)) = (((n : ℤ) : ℚ)) from (Int.cast_natCast n).symm,
    Rat.floor_intCast_div_natCast, ← Int.ofNat_ediv]
  rfl

theorem pyTruncNat_div_div (a b c : ℕ) :
    pyTruncNat ((a : ℚ) / ((b : ℚ) / (c : ℚ))) = a * c / b := by
  rw [div_div_eq_mul_div, ← Nat.cast_mul, pyTruncNat_cast_div]

theorem pyTruncNat_mul_div (a b c : ℕ) :
    pyTruncNat ((a : ℚ) * ((b : ℚ) / (c : ℚ))) = a * b / c := by
  rw [← mul_div_assoc, ← Nat.cast_mul, pyTruncNat_cast_div]

/-- The exact rational geometry of `get_limited_size` computes the same
pair as plain natural division. -/
theorem get_limited_size_eq (image : ImageData) (max_size : Size) :
    get_limited_size image max_size =
      if image.width > image.height
      then (max_size.1, max_size.1 * image.height / image.width)
      else (max_size.2 * image.width / image.height, max_size.2) := by
  unfold get_limited_size is_landscape_orientation
  by_cases h : image.width > image.height <;>
    simp [h, pyTruncNat_div_div, pyTruncNat_mul_div]

/-! ## Shared concrete scenarios -/

/-- A well-formed 4000×3000 landscape JPEG named `a.jpg`, with a
one-line sidecar `A`. -/
def entryA : SrcEntry :=
  { name := "a.jpg", isFile := true, readable := true,
    content := [0xFF, 0xD8, 0xFF, 0xE0], sidecar := SidecarState.lines ["A\n"],
    image := some ⟨4000, 3000⟩, exif := [], encodeOk := true }

/-- Like `entryA`, named `b.jpg` with sidecar `B`. -/
def entryB : SrcEntry := { entryA with name := "b.jpg", sidecar := SidecarState.lines ["B\n"] }

/-- Like `entryA`, named `c.jpg` with sidecar `C`. -/
def entryC : SrcEntry := { entryA with name := "c.jpg", sidecar := SidecarState.lines ["C\n"] }

/-- A file that sniffs as JPEG but fails to decode. -/
def entryBadDecode : SrcEntry := { entryA with name := "bad.jpg", sidecar := SidecarState.absent, image := none }

/-- A regular file that cannot be opened (permissions). -/
def entryLocked : SrcEntry := { entryA with name := "locked.jpg", readable := false }

/-- A non-file entry (a subdirectory). -/
def entryDir : SrcEntry := { entryA with name := "sub.jpg", isFile := false }

/-! ## C3: orientation-aware size computation -/

/-- **C3.**  For a landscape source (`originalWidth > originalHeight`)
the computed rendition size is
`(box.width, trunc(box.width / (originalWidth/originalHeight)))`, and
for a portrait or square source it is
`(trunc(box.height * (originalWidth/originalHeight)), box.height)`;
truncation of the exact quotient equals natural-number division. -/
theorem c3_limited_size_orientation_formula (image : ImageData) (box : Size)
    (hw : 0 < image.width) (hh : 0 < image.height) :
    (image.width > image.height →
      get_limited_size image box
          = (box.1, (⌊(box.1 : ℚ) / ((image.width : ℚ) / (image.height : ℚ))⌋).toNat)
        ∧ get_limited_size image box = (box.1, box.1 * image.height / image.width)) ∧
    (image.width ≤ image.height →
      get_limited_size image box
          = ((⌊(box.2 : ℚ) * ((image.width : ℚ) / (image.height : ℚ))⌋).toNat, box.2)
        ∧ get_limited_size image box = (box.2 * image.width / image.height, box.2)) := by
  constructor
  · intro hl
    constructor
    · unfold get_limited_size is_landscape_orientation pyTruncNat
      simp [hl]
    · rw [get_limited_size_eq, if_pos hl]
  · intro hp
    have hnl : ¬ image.width > image.height := not_lt.mpr hp
    constructor
    · unfold get_limited_size is_landscape_orientation pyTruncNat
      simp [hnl]
    · rw [get_limited_size_eq, if_neg hnl]

/-- Witness for C3: the 4000×3000 landscape source against the
(1920, 1080) bounding box, where the derived height is 1440. -/
theorem c3_limited_size_orientation_formula_witness :
    0 < (4000 : ℕ) ∧ 0 < (3000 : ℕ) ∧
    (((4000 : ℕ) > 3000 →
      get_limited_size ⟨4000, 3000⟩ (1920, 1080)
          = (1920, (⌊(1920 : ℚ) / (((4000 : ℕ) : ℚ) / ((3000 : ℕ) : ℚ))⌋).toNat)
        ∧ get_limited_size ⟨4000, 3000⟩ (1920, 1080) = (1920, 1920 * 3000 / 4000)) ∧
     ((4000 : ℕ) ≤ 3000 →
      get_limited_size ⟨4000, 3000⟩ (1920, 1080)
          = ((⌊(1080 : ℚ) * (((4000 : ℕ) : ℚ) / ((3000 : ℕ) : ℚ))⌋).toNat, 1080)
        ∧ get_limited_size ⟨4000, 3000⟩ (1920, 1080) = (1080 * 4000 / 3000, 1080))) :=
  ⟨by decide, by decide,
    c3_limited_size_orientation_formula ⟨4000, 3000⟩ (1920, 1080) (by decide) (by decide)⟩

/-! ## C4: sidecar parsing -/

/-- **C4 counterexample.**  A sidecar whose first line is blank: the
claim says the title is `None`, but `read_description_file` returns the
empty string `""` (the stripped first line). -/
theorem c4_blank_title_counterexample :
    read_description_file (SidecarState.lines ["\n", "Over the bay\n"])
        = Except.ok (some "", some "Over the bay") ∧
    read_description_file (SidecarState.lines ["\n", "Over the bay\n"])
        ≠ Except.ok (none, some "Over the bay") := by
  constructor
  · rfl
  · decide

/-- **C4 (amended).**  A missing sidecar yields `(None, None)`; a
present sidecar yields as title the stripped first line when there is
one — as a string, possibly empty — and `None` only when the file has
no lines at all; the description likewise is the stripped second line,
`None` when there is no second line. -/
theorem c4_sidecar_first_two_lines (ls : List String) :
    read_description_file SidecarState.absent = Except.ok (none, none) ∧
    read_description_file (SidecarState.lines ls)
        = Except.ok (ls.head?.map pyStrip, ((ls.drop 1).head?).map pyStrip) := by
  refine ⟨rfl, ?_⟩
  rcases ls with _ | ⟨a, _ | ⟨b, rest⟩⟩ <;> rfl

/-! ## C5: discovery failure versus directory creation -/

/-- **C5 counterexample.**  With an unreadable source directory the run
aborts with a discovery error, yet all four per-resolution output
directories have already been created — not zero, as the claim says. -/
theorem c5_discovery_failure_creates_dirs_counterexample :
    (process_photos ["photos"] none ["dest"] "JPEG" 80).result
        = Except.error Err.discovery ∧
    (process_photos ["photos"] none ["dest"] "JPEG" 80).created_dirs
        = [["dest", "img", "1920"], ["dest", "img", "1280"],
           ["dest", "img", "640"], ["dest", "img", "320"]] := by
  constructor
  · rfl
  · decide

/-- **C5 (amended).**  A discovery failure aborts the run with no
renditions written and no photo list, but only after
`create_image_directories` has created the per-resolution output
directories: the destination is left with the `img/<width>`
subdirectories. -/
theorem c5_discovery_failure_after_dir_creation
    (source_dir destination_dir : FsPath) (output_format : String) (output_quality : ℕ) :
    (process_photos source_dir none destination_dir output_format output_quality).result
        = Except.error Err.discovery ∧
    (process_photos source_dir none destination_dir output_format output_quality).writes
        = [] ∧
    (process_photos source_dir none destination_dir output_format output_quality).created_dirs
        = (create_image_directories destination_dir).1 ∧
    (create_image_directories destination_dir).1 ≠ [] := by
  refine ⟨rfl, rfl, rfl, ?_⟩
  simp [create_image_directories, TARGET_RESOLUTIONS]

/-! ## C9: bounding-box containment -/

/-- **C9 counterexample.**  The 4000×3000 landscape source resized into
the (1920, 1080) bounding box yields 1920×1440: the height 1440 exceeds
the box's height component 1080, so the computed size does not fit
within the bounding box. -/
theorem c9_box_containment_counterexample :
    get_limited_size ⟨4000, 3000⟩ (1920, 1080) = (1920, 1440) ∧ 1080 < 1440 := by
  refine ⟨?_, by decide⟩
  rw [get_limited_size_eq]
  decide

/-- **C9 (amended).**  Only the binding dimension is guaranteed to fit:
for a landscape source the computed width equals the box's width and the
height is the aspect-preserving exact value truncated (within 1 below
it); for a portrait or square source the computed height equals the
box's height and the width likewise; the non-binding dimension may
exceed the box. -/
theorem c9_binding_dimension_fits (image : ImageData) (box : Size)
    (hw : 0 < image.width) (hh : 0 < image.height) :
    (is_landscape_orientation image = true →
      (get_limited_size image box).1 = box.1 ∧
      ((get_limited_size image box).2 : ℚ)
          ≤ (box.1 : ℚ) * (image.height : ℚ) / (image.width : ℚ) ∧
      (box.1 : ℚ) * (image.height : ℚ) / (image.width : ℚ) - 1
          < ((get_limited_size image box).2 : ℚ)) ∧
    (is_landscape_orientation image = false →
      (get_limited_size image box).2 = box.2 ∧
      ((get_limited_size image box).1 : ℚ)
          ≤ (box.2 : ℚ) * (image.width : ℚ) / (image.height : ℚ) ∧
      (box.2 : ℚ) * (image.width : ℚ) / (image.height : ℚ) - 1
          < ((get_limited_size image box).1 : ℚ)) := by
  have hwq : (0 : ℚ) < (image.width : ℚ) := by exact_mod_cast hw
  have hhq : (0 : ℚ) < (image.height : ℚ) := by exact_mod_cast hh
  constructor
  · intro hl
    have hgt : image.width > image.height := by
      have := hl
      unfold is_landscape_orientation at this
      exact of_decide_eq_true this
    rw [get_limited_size_eq, if_pos hgt]
    refine ⟨rfl, ?_, ?_⟩
    · calc ((box.1 * image.height / image.width : ℕ) : ℚ)
          ≤ ((box.1 * image.height : ℕ) : ℚ) / (image.width : ℚ) := Nat.cast_div_le
        _ = (box.1 : ℚ) * (image.height : ℚ) / (image.width : ℚ) := by push_cast; ring
    · rw [sub_lt_iff_lt_add, div_lt_iff₀ hwq]
      have hnat : box.1 * image.height
          < image.width * (box.1 * image.height / image.width + 1) :=
        Nat.lt_mul_div_succ _ hw
      calc (box.1 : ℚ) * (image.height : ℚ)
          = ((box.1 * image.height : ℕ) : ℚ) := by push_cast; ring
        _ < ((image.width * (box.1 * image.height / image.width + 1) : ℕ) : ℚ) := by
            exact_mod_cast hnat
        _ = (((box.1 * image.height / image.width : ℕ) : ℚ) + 1) * (image.width : ℚ) := by
            push_cast; ring
  · intro hnl
    have hle : ¬ image.width > image.height := by
      intro hgt
      have : is_landscape_orientation image = true := decide_eq_true hgt
      rw [hnl] at this
      exact Bool.false_ne_true this
    rw [get_limited_size_eq, if_neg hle]
    refine ⟨rfl, ?_, ?_⟩
    · calc ((box.2 * image.width / image.height : ℕ) : ℚ)
          ≤ ((box.2 * image.width : ℕ) : ℚ) / (image.height : ℚ) := Nat.cast_div_le
        _ = (box.2 : ℚ) * (image.width : ℚ) / (image.height : ℚ) := by push_cast; ring
    · rw [sub_lt_iff_lt_add, div_lt_iff₀ hhq]
      have hnat : box.2 * image.width
          < image.height * (box.2 * image.width / image.height + 1) :=
        Nat.lt_mul_div_succ _ hh
      calc (box.2 : ℚ) * (image.width : ℚ)
          = ((box.2 * image.width : ℕ) : ℚ) := by push_cast; ring
        _ < ((image.height * (box.2 * image.width / image.height + 1) : ℕ) : ℚ) := by
            exact_mod_cast hnat
        _ = (((box.2 * image.width / image.height : ℕ) : ℚ) + 1) * (image.height : ℚ) := by
            push_cast; ring

/-- Witness for C9 (amended): the landscape 4000×3000 source against the
(1920, 1080) box. -/
theorem c9_binding_dimension_fits_witness :
    is_landscape_orientation ⟨4000, 3000⟩ = true ∧
    ((get_limited_size ⟨4000, 3000⟩ (1920, 1080)).1 = 1920 ∧
     ((get_limited_size ⟨4000, 3000⟩ (1920, 1080)).2 : ℚ)
         ≤ (1920 : ℚ) * ((3000 : ℕ) : ℚ) / ((4000 : ℕ) : ℚ) ∧
     (1920 : ℚ) * ((3000 : ℕ) : ℚ) / ((4000 : ℕ) : ℚ) - 1
         < ((get_limited_size ⟨4000, 3000⟩ (1920, 1080)).2 : ℚ)) :=
  ⟨by decide,
    (c9_binding_dimension_fits ⟨4000, 3000⟩ (1920, 1080) (by decide) (by decide)).1 (by decide)⟩

/-! ## C8: content-based classification and unreadable entries -/

/-- **C8 counterexample.**  On a regular file that cannot be opened,
`is_image` propagates the `OSError` raised inside `filetype.guess`
instead of returning false. -/
theorem c8_unreadable_raises_counterexample :
    is_image entryLocked = Except.error Err.osOpen ∧
    is_image entryLocked ≠ Except.ok false := by
  constructor
  · rfl
  · decide

/-- **C8 (amended).**  `is_image` returns true exactly for readable
regular files whose content starts with the JPEG signature — the
decision is independent of the entry's name, hence of its extension —
but on a non-file or unreadable entry it raises the underlying OS error
rather than returning false. -/
theorem c8_is_image_content_sniff (e : SrcEntry) :
    (is_image e = Except.ok true ↔
      e.isFile = true ∧ e.readable = true ∧ bytesStartWith e.content jpegMagic = true) ∧
    (∀ n : String, is_image { e with name := n } = is_image e) ∧
    ((e.isFile = false ∨ e.readable = false) → is_image e = Except.error Err.osOpen) := by
  obtain ⟨nm, f, r, c, sc, img, ex, enc⟩ := e
  refine ⟨?_, fun n => rfl, ?_⟩
  · cases f <;> cases r <;>
      simp [is_image, filetype_guess, sniffMime, except_bind_ok, except_bind_error,
        except_pure_eq] <;>
      by_cases hj : bytesStartWith c jpegMagic = true <;>
      simp [hj, SUPPORTED_INPUT_TYPES] <;>
      by_cases hp : bytesStartWith c pngMagic = true <;>
      simp [hp]
  · rintro (hf | hr)
    · cases hf
      rfl
    · cases hr
      cases f <;> rfl

/-- Witness for C8 (amended): a subdirectory entry makes `is_image`
raise. -/
theorem c8_is_image_content_sniff_witness :
    (entryDir.isFile = false ∨ entryDir.readable = false) ∧
    is_image entryDir = Except.error Err.osOpen :=
  ⟨Or.inl (by decide), (c8_is_image_content_sniff entryDir).2.2 (Or.inl (by decide))⟩

/-! ## C6: PhotoRecord derived accessors -/

/-- `List.lookup` succeeds on any key occurring in the association
list. -/
theorem lookup_mem_keys {β : Type} (l : List (ℕ × β)) (a : ℕ)
    (h : a ∈ l.map Prod.fst) : ∃ b, l.lookup a = some b := by
  induction l with
  | nil => simp at h
  | cons kv t ih =>
    by_cases hk : a = kv.1
    · exact ⟨kv.2, by simp [List.lookup, hk]⟩
    · have : a ∈ t.map Prod.fst := by
        rcases List.mem_map.mp h with ⟨p, hp, he⟩
        rcases List.mem_cons.mp hp with rfl | hpt
        · exact absurd he.symm hk
        · exact List.mem_map.mpr ⟨p, hpt, he⟩
      obtain ⟨b, hb⟩ := ih this
      exact ⟨b, by simpa [List.lookup, beq_false_of_ne hk] using hb⟩

/-- **C6.**  For every `Photo` with a nonempty rendition map: `sizes` is
an ascending-sorted permutation of the widths of the map; `default_size`
is the smallest such width; `path` is the rendition looked up at
`default_size`; `file_name` is the basename of that path; and when the
available widths are exactly the four target resolutions, the default
size is 320. -/
theorem c6_photo_derived_accessors (p : Photo) (h : p.paths ≠ []) :
    List.Sorted (· ≤ ·) p.sizes ∧
    p.sizes.Perm (p.paths.map Prod.fst) ∧
    p.default_size ∈ p.paths.map Prod.fst ∧
    (∀ k ∈ p.paths.map Prod.fst, p.default_size ≤ k) ∧
    p.paths.lookup p.default_size = some p.path ∧
    p.file_name = FsPath.name p.path ∧
    ((p.paths.map Prod.fst).Perm [1920, 1280, 640, 320] → p.default_size = 320) := by
  have hperm : p.sizes.Perm (p.paths.map Prod.fst) :=
    List.perm_insertionSort (· ≤ ·) (p.paths.map Prod.fst)
  have hsort : List.Sorted (· ≤ ·) p.sizes :=
    List.sorted_insertionSort (· ≤ ·) (p.paths.map Prod.fst)
  have hne : p.sizes ≠ [] := by
    intro h0
    have : p.paths.map Prod.fst = [] := by
      have := hperm.symm
      rw [h0] at this
      exact List.perm_nil.mp this
    exact h (List.map_eq_nil_iff.mp this)
  obtain ⟨hd, tl, hcons⟩ : ∃ hd tl, p.sizes = hd :: tl := by
    cases hs : p.sizes with
    | nil => exact absurd hs hne
    | cons a t => exact ⟨a, t, rfl⟩
  have hdef : p.default_size = hd := by
    unfold Photo.default_size
    rw [hcons]
    rfl
  have hmin : ∀ k ∈ p.paths.map Prod.fst, p.default_size ≤ k := by
    intro k hk
    have hks : k ∈ p.sizes := hperm.symm.subset hk
    rw [hcons] at hks
    rcases List.mem_cons.mp hks with rfl | hkt
    · exact hdef.le
    · rw [hcons] at hsort
      exact hdef.le.trans ((List.sorted_cons.mp hsort).1 k hkt)
  have hmem : p.default_size ∈ p.paths.map Prod.fst := by
    apply hperm.subset
    rw [hcons, hdef]
    exact List.mem_cons_self hd tl
  obtain ⟨b, hb⟩ := lookup_mem_keys p.paths p.default_size hmem
  have hpath : p.path = b := by
    unfold Photo.path
    rw [hb]
    rfl
  refine ⟨hsort, hperm, hmem, hmin, by rw [hpath]; exact hb, rfl, ?_⟩
  intro hquad
  have h320 : p.default_size ≤ 320 := by
    apply hmin
    apply hquad.symm.subset
    decide
  have hin : p.default_size ∈ [1920, 1280, 640, 320] := hquad.subset hmem
  have hcases : p.default_size = 1920 ∨ p.default_size = 1280 ∨
      p.default_size = 640 ∨ p.default_size = 320 := by simpa using hin
  omega

/-- A concrete photo record holding all four target widths. -/
def photoFour : Photo :=
  { title := none, description := none,
    paths := [(1920, ["d", "img", "1920", "x.jpeg"]), (1280, ["d", "img", "1280", "x.jpeg"]),
              (640, ["d", "img", "640", "x.jpeg"]), (320, ["d", "img", "320", "x.jpeg"])],
    exif := [] }

/-- Witness for C6 at a photo with all four target widths. -/
theorem c6_photo_derived_accessors_witness :
    photoFour.paths ≠ [] ∧
    (List.Sorted (· ≤ ·) photoFour.sizes ∧
     photoFour.sizes.Perm (photoFour.paths.map Prod.fst) ∧
     photoFour.default_size ∈ photoFour.paths.map Prod.fst ∧
     (∀ k ∈ photoFour.paths.map Prod.fst, photoFour.default_size ≤ k) ∧
     photoFour.paths.lookup photoFour.default_size = some photoFour.path ∧
     photoFour.file_name = FsPath.name photoFour.path ∧
     ((photoFour.paths.map Prod.fst).Perm [1920, 1280, 640, 320] →
        photoFour.default_size = 320)) :=
  ⟨by decide, c6_photo_derived_accessors photoFour (by decide)⟩

/-! ## C1: rendition output paths -/

/-- **C1 (code bug).**  Processing `a.jpg` from a source directory named
`photos` writes every rendition to `dest/img/<width>/photos.jpeg` — the
basename of the *source directory* with the extension rewritten — not to
`dest/img/<width>/a.jpeg` as the claim states, because `process_photos`
passes `source_dir` where `resize_images` expects the source image
path. -/
theorem c1_rendition_paths_use_directory_name :
    (process_photos ["photos"] (some [entryA]) ["dest"] "JPEG" 80).writes
        = [(["dest", "img", "1920", "photos.jpeg"], (1920, 1440)),
           (["dest", "img", "1280", "photos.jpeg"], (1280, 960)),
           (["dest", "img", "640", "photos.jpeg"], (640, 480)),
           (["dest", "img", "320", "photos.jpeg"], (320, 240))] ∧
    ∀ w ∈ (process_photos ["photos"] (some [entryA]) ["dest"] "JPEG" 80).writes,
      FsPath.name w.1 ≠ "a.jpeg" := by
  have h : (process_photos ["photos"] (some [entryA]) ["dest"] "JPEG" 80).writes
      = [(["dest", "img", "1920", "photos.jpeg"], (1920, 1440)),
         (["dest", "img", "1280", "photos.jpeg"], (1280, 960)),
         (["dest", "img", "640", "photos.jpeg"], (640, 480)),
         (["dest", "img", "320", "photos.jpeg"], (320, 240))] := by
    simp [process_photos, create_image_directories, TARGET_RESOLUTIONS, find_photos,
      find_photos_list, is_image, filetype_guess, sniffMime, bytesStartWith, jpegMagic,
      pngMagic, entryA, process_loop, process_one, read_description_file, pyStrip,
      isPySpace, read_exif, ExifTags_TAGS, resize_images, resize_images_loop,
      resize_image, SUPPORTED_OUTPUT_TYPES, get_limited_size_eq,
      is_landscape_orientation, FsPath.withSuffix, FsPath.name, nameStem, pyLower,
      sortPhotos, except_bind_ok, except_bind_error, except_pure_eq, except_map_ok,
      except_map_error]
    decide
  refine ⟨h, ?_⟩
  rw [h]
  decide

/-! ## C2: ordering of the returned records -/

/-- **C2 (code bug).**  With sources discovered in the order `b.jpg`,
`a.jpg`, `c.jpg` (carrying sidecar titles `B`, `A`, `C`), the pipeline
returns the records still in discovery order `B`, `A`, `C`, because
every record's `file_name` is the shared `"320"` (the basename of the
smallest-width output directory), so the sort by `str(photo)` compares
only equal keys — not `a.jpg, b.jpg, c.jpg` as the claim states. -/
theorem c2_returned_order_is_discovery_order :
    ((process_photos ["photos"] (some [entryB, entryA, entryC]) ["dest"] "JPEG" 80).result).map
        (fun ps => ps.map (fun p => (p.title, p.file_name)))
      = Except.ok [(some "B", "320"), (some "A", "320"), (some "C", "320")] := by
  simp [process_photos, create_image_directories, TARGET_RESOLUTIONS, find_photos,
    find_photos_list, is_image, filetype_guess, sniffMime, bytesStartWith, jpegMagic,
    pngMagic, entryA, entryB, entryC, process_loop, process_one, read_description_file,
    pyStrip, isPySpace, read_exif, ExifTags_TAGS, resize_images, resize_images_loop,
    resize_image, SUPPORTED_OUTPUT_TYPES, get_limited_size_eq, is_landscape_orientation,
    FsPath.withSuffix, FsPath.name, nameStem, pyLower, sortPhotos,
    except_bind_ok, except_bind_error, except_pure_eq, except_map_ok, except_map_error]
  decide

/-! ## The abort/complete behaviour of the processing loop -/

/-- Whether an `Except` computation succeeded. -/
def exceptIsOk {ε α : Type} : Except ε α → Bool
  | Except.ok _ => true
  | Except.error _ => false

theorem process_loop_ok_of_all (sd : FsPath) (dirs : List (ℕ × FsPath))
    (fmt : String) (q : ℕ) (sources : List SrcEntry)
    (h : ∀ s ∈ sources, exceptIsOk (process_one sd dirs fmt q s) = true) :
    ∃ ps, (process_loop sd dirs fmt q sources).2 = Except.ok ps ∧
      ps.length = sources.length := by
  induction sources with
  | nil => exact ⟨[], rfl, rfl⟩
  | cons s rest ih =>
    have hs := h s (List.mem_cons_self s rest)
    obtain ⟨ps, hps, hlen⟩ := ih (fun t ht => h t (List.mem_cons_of_mem s ht))
    cases hp : process_one sd dirs fmt q s with
    | error e => rw [hp] at hs; exact absurd hs (by simp [exceptIsOk])
    | ok w =>
      obtain ⟨ws, photo⟩ := w
      rcases hrest : process_loop sd dirs fmt q rest with ⟨ws2, r⟩
      rw [hrest] at hps
      have hr : r = Except.ok ps := hps
      refine ⟨photo :: ps, ?_, by simp [hlen]⟩
      simp only [process_loop, hp, hrest]
      rw [hr]
      rfl

theorem process_loop_error_of_exists (sd : FsPath) (dirs : List (ℕ × FsPath))
    (fmt : String) (q : ℕ) (sources : List SrcEntry) (s : SrcEntry)
    (hs : s ∈ sources)
    (he : exceptIsOk (process_one sd dirs fmt q s) = false) :
    ∃ e, (process_loop sd dirs fmt q sources).2 = Except.error e := by
  induction sources with
  | nil => simp at hs
  | cons t rest ih =>
    cases hp : process_one sd dirs fmt q t with
    | error e => exact ⟨e, by simp only [process_loop, hp]⟩
    | ok w =>
      have hst : s ∈ rest := by
        rcases List.mem_cons.mp hs with rfl | hmem
        · rw [hp] at he; exact absurd he (by simp [exceptIsOk])
        · exact hmem
      obtain ⟨e, hee⟩ := ih hst
      obtain ⟨ws, photo⟩ := w
      rcases hrest : process_loop sd dirs fmt q rest with ⟨ws2, r⟩
      rw [hrest] at hee
      have hr : r = Except.error e := hee
      refine ⟨e, ?_⟩
      simp only [process_loop, hp, hrest]
      rw [hr]
      rfl

/-- Every photo the loop produces carries the shared `destination_dirs`
record as its `paths`. -/
theorem process_one_paths (sd : FsPath) (dirs : List (ℕ × FsPath))
    (fmt : String) (q : ℕ) (s : SrcEntry) (w : List (FsPath × Size) × Photo)
    (h : process_one sd dirs fmt q s = Except.ok w) : w.2.paths = dirs := by
  unfold process_one at h
  cases htd : read_description_file s.sidecar with
  | error e => rw [htd] at h; exact absurd h (by simp [except_bind_error])
  | ok td =>
    rw [htd] at h
    cases hex : read_exif s with
    | error e => rw [hex] at h; exact absurd h (by simp [except_bind_ok, except_bind_error])
    | ok exif_data =>
      rw [hex] at h
      cases hws : resize_images s sd dirs fmt q with
      | error e =>
        rw [hws] at h
        exact absurd h (by simp [except_bind_ok, except_bind_error])
      | ok ws =>
        rw [hws] at h
        simp only [except_bind_ok, except_pure_eq, Except.ok.injEq] at h
        rw [← h]

theorem process_loop_paths (sd : FsPath) (dirs : List (ℕ × FsPath))
    (fmt : String) (q : ℕ) (sources : List SrcEntry) (ps : List Photo)
    (h : (process_loop sd dirs fmt q sources).2 = Except.ok ps) :
    ∀ p ∈ ps, p.paths = dirs := by
  induction sources generalizing ps with
  | nil =>
    simp only [process_loop, Except.ok.injEq] at h
    rw [← h]
    intro p hp
    simp at hp
  | cons t rest ih =>
    cases hp : process_one sd dirs fmt q t with
    | error e => rw [process_loop, hp] at h; exact absurd h (by simp)
    | ok w =>
      obtain ⟨ws, photo⟩ := w
      rcases hrest : process_loop sd dirs fmt q rest with ⟨ws2, r⟩
      rw [process_loop, hp, hrest] at h
      cases r with
      | error e => exact absurd h (by simp [Except.map])
      | ok ps' =>
        simp only [Except.map, Except.ok.injEq] at h
        intro p hmem
        rw [← h] at hmem
        rcases List.mem_cons.mp hmem with rfl | hmem'
        · exact process_one_paths sd dirs fmt q t (ws, p) hp
        · exact ih ps' (by rw [hrest]) p hmem'

/-! ## Totality and transitivity of the Python string order -/

theorem charListLe_total : ∀ as bs : List Char,
    charListLe as bs = true ∨ charListLe bs as = true
  | [], _ => Or.inl rfl
  | _ :: _, [] => Or.inr rfl
  | a :: as, b :: bs => by
    by_cases hab : a.toNat < b.toNat
    · exact Or.inl (by simp [charListLe, hab])
    · by_cases hba : b.toNat < a.toNat
      · exact Or.inr (by simp [charListLe, hba, hab])
      · rcases charListLe_total as bs with h | h
        · exact Or.inl (by simpa [charListLe, hab, hba] using h)
        · exact Or.inr (by simpa [charListLe, hab, hba] using h)

theorem charListLe_trans : ∀ as bs cs : List Char,
    charListLe as bs = true → charListLe bs cs = true → charListLe as cs = true
  | [], _, _ => fun _ _ => rfl
  | a :: as, [], _ => fun h1 _ => absurd h1 (by simp [charListLe])
  | _ :: _, _ :: _, [] => fun _ h2 => absurd h2 (by simp [charListLe])
  | a :: as, b :: bs, c :: cs => by
    intro h1 h2
    simp only [charListLe] at h1 h2 ⊢
    by_cases hab : a.toNat < b.toNat
    · by_cases hbc : b.toNat < c.toNat
      · have hac : a.toNat < c.toNat := hab.trans hbc
        simp [hac]
      · by_cases hcb : c.toNat < b.toNat
        · rw [if_neg hbc, if_pos hcb] at h2; exact absurd h2 (by simp)
        · have hac : a.toNat < c.toNat := by omega
          simp [hac]
    · by_cases hba : b.toNat < a.toNat
      · rw [if_neg hab, if_pos hba] at h1; exact absurd h1 (by simp)
      · rw [if_neg hab, if_neg hba] at h1
        by_cases hbc : b.toNat < c.toNat
        · have hac : a.toNat < c.toNat := by omega
          simp [hac]
        · by_cases hcb : c.toNat < b.toNat
          · rw [if_neg hbc, if_pos hcb] at h2; exact absurd h2 (by simp)
          · rw [if_neg hbc, if_neg hcb] at h2
            have hac1 : ¬ a.toNat < c.toNat := by omega
            have hac2 : ¬ c.toNat < a.toNat := by omega
            rw [if_neg hac1, if_neg hac2]
            exact charListLe_trans as bs cs h1 h2

/-! ## C7: all-or-nothing runs -/

/-- **C7.**  Once discovery succeeds, the run is all-or-nothing: if
processing any discovered file fails (sidecar read, decode or encode
error), the pipeline's result is an error and no photo list is
returned; if every file processes successfully, the result is the full
list — one record per discovered source — sorted by the string key. -/
theorem c7_all_or_nothing
    (source_dir : FsPath) (entries : Option (List SrcEntry)) (destination_dir : FsPath)
    (output_format : String) (output_quality : ℕ) (sources : List SrcEntry)
    (hfind : find_photos entries = Except.ok sources) :
    ((∃ s ∈ sources, exceptIsOk (process_one source_dir
        (create_image_directories destination_dir).2 output_format output_quality s)
          = false) →
      ∃ e, (process_photos source_dir entries destination_dir output_format
          output_quality).result = Except.error e) ∧
    ((∀ s ∈ sources, exceptIsOk (process_one source_dir
        (create_image_directories destination_dir).2 output_format output_quality s)
          = true) →
      ∃ photos, (process_photos source_dir entries destination_dir output_format
          output_quality).result = Except.ok photos ∧
        photos.length = sources.length ∧
        List.Sorted (fun a b => pyStrLe a.toStr b.toStr = true) photos) := by
  rcases hcid : create_image_directories destination_dir with ⟨created, dirs⟩
  constructor
  · rintro ⟨s, hs, he⟩
    obtain ⟨e, hre⟩ := process_loop_error_of_exists source_dir dirs output_format
      output_quality sources s hs he
    refine ⟨e, ?_⟩
    simp only [process_photos, hcid, hfind]
    rcases hloop : process_loop source_dir dirs output_format output_quality sources
      with ⟨ws, r⟩
    rw [hloop] at hre
    have hr : r = Except.error e := hre
    rw [hr]
    rfl
  · intro hall
    obtain ⟨ps, hr, hlen⟩ := process_loop_ok_of_all source_dir dirs output_format
      output_quality sources hall
    refine ⟨sortPhotos ps, ?_, ?_, ?_⟩
    · simp only [process_photos, hcid, hfind]
      rcases hloop : process_loop source_dir dirs output_format output_quality sources
        with ⟨ws, r⟩
      rw [hloop] at hr
      have hr2 : r = Except.ok ps := hr
      rw [hr2]
      rfl
    · rw [← hlen]
      exact (List.perm_insertionSort _ ps).length_eq
    · unfold sortPhotos
      letI : IsTotal Photo (fun a b => pyStrLe a.toStr b.toStr = true) :=
        ⟨fun a b => charListLe_total a.toStr.toList b.toStr.toList⟩
      letI : IsTrans Photo (fun a b => pyStrLe a.toStr b.toStr = true) :=
        ⟨fun a b c h1 h2 => charListLe_trans a.toStr.toList b.toStr.toList c.toStr.toList h1 h2⟩
      exact List.sorted_insertionSort _ ps

/-- Witness for C7: a single discovered file that fails to decode makes
the whole run return an error. -/
theorem c7_all_or_nothing_witness :
    find_photos (some [entryBadDecode]) = Except.ok [entryBadDecode] ∧
    (∃ e, (process_photos ["photos"] (some [entryBadDecode]) ["dest"] "JPEG" 80).result
        = Except.error e) :=
  ⟨by decide,
   (c7_all_or_nothing ["photos"] (some [entryBadDecode]) ["dest"] "JPEG" 80
       [entryBadDecode] (by decide)).1
     ⟨entryBadDecode, by decide, by decide⟩⟩

/-! ## C10: every record shares the width→directory map -/

/-- **C10.**  Every `Photo` the pipeline returns was constructed with
the shared width→output-directory record as its `paths`, so all
records agree on `paths`, on `path` — the smallest-width *directory*
`destinationDir/img/320`, not a per-photo rendition file — and on
`file_name`, which is the directory basename `"320"`. -/
theorem c10_records_share_directory_map
    (source_dir : FsPath) (entries : Option (List SrcEntry)) (destination_dir : FsPath)
    (output_format : String) (output_quality : ℕ) (photos : List Photo)
    (hrun : (process_photos source_dir entries destination_dir output_format
        output_quality).result = Except.ok photos) :
    (∀ p ∈ photos, p.paths = (create_image_directories destination_dir).2 ∧
      p.path = destination_dir ++ ["img", "320"] ∧ p.file_name = "320") ∧
    (∀ p ∈ photos, ∀ r ∈ photos,
      p.paths = r.paths ∧ p.path = r.path ∧ p.file_name = r.file_name) := by
  rcases hcid : create_image_directories destination_dir with ⟨created, dirs⟩
  have hdirs : (create_image_directories destination_dir).2 = dirs := by rw [hcid]
  have hshape : dirs = [(1920, destination_dir ++ ["img", "1920"]),
      (1280, destination_dir ++ ["img", "1280"]), (640, destination_dir ++ ["img", "640"]),
      (320, destination_dir ++ ["img", "320"])] := by
    rw [← hdirs]
    simp [create_image_directories, TARGET_RESOLUTIONS,
      show toString (1920 : ℕ) = "1920" from rfl, show toString (1280 : ℕ) = "1280" from rfl,
      show toString (640 : ℕ) = "640" from rfl, show toString (320 : ℕ) = "320" from rfl]
  simp only [process_photos, hcid] at hrun
  cases hfind : find_photos entries with
  | error e =>
    rw [hfind] at hrun
    simp at hrun
  | ok sources =>
    rw [hfind] at hrun
    simp only [] at hrun
    rcases hloop : process_loop source_dir dirs output_format output_quality sources
      with ⟨ws, r⟩
    rw [hloop] at hrun
    have hrun2 : Except.map sortPhotos r = Except.ok photos := hrun
    cases r with
    | error e => exact absurd hrun2 (by simp [Except.map])
    | ok ps =>
      have hphotos : photos = sortPhotos ps := by
        simp only [Except.map, Except.ok.injEq] at hrun2
        exact hrun2.symm
      have hpaths : ∀ p ∈ photos, p.paths = dirs := by
        intro p hp
        rw [hphotos] at hp
        exact process_loop_paths source_dir dirs output_format output_quality sources ps
          (by rw [hloop]) p ((List.perm_insertionSort _ ps).subset hp)
      have hone : ∀ x : Photo, x.paths = dirs →
          x.path = destination_dir ++ ["img", "320"] ∧ x.file_name = "320" := by
        intro x hx
        have hkeys : x.paths.map Prod.fst = [1920, 1280, 640, 320] := by
          rw [hx, hshape]
          rfl
        have hsizes : x.sizes = [320, 640, 1280, 1920] := by
          unfold Photo.sizes
          rw [hkeys]
          decide
        have hds : x.default_size = 320 := by
          unfold Photo.default_size
          rw [hsizes]
          rfl
        have hlook : x.paths.lookup (320 : ℕ) = some (destination_dir ++ ["img", "320"]) := by
          rw [hx, hshape]
          rfl
        have hpath : x.path = destination_dir ++ ["img", "320"] := by
          unfold Photo.path
          rw [hds, hlook]
          rfl
        refine ⟨hpath, ?_⟩
        unfold Photo.file_name FsPath.name
        rw [hpath, List.getLast?_append]
        rfl
      constructor
      · intro p hp
        have hx := hpaths p hp
        exact ⟨by rw [hx], (hone p hx).1, (hone p hx).2⟩
      · intro p hp r hr
        have h1 := hone p (hpaths p hp)
        have h2 := hone r (hpaths r hr)
        exact ⟨by rw [hpaths p hp, hpaths r hr], by rw [h1.1, h2.1], by rw [h1.2, h2.2]⟩

/-- The record the one-photo run returns: paths is the shared
width→directory map of `dest`. -/
def photoOfRunA : Photo :=
  { title := some "A", description := none,
    paths := [(1920, ["dest", "img", "1920"]), (1280, ["dest", "img", "1280"]),
              (640, ["dest", "img", "640"]), (320, ["dest", "img", "320"])],
    exif := [] }

/-- Witness for C10: the one-photo run; the record's `path` is the
`img/320` directory and its `file_name` is `"320"`. -/
theorem c10_records_share_directory_map_witness :
    (process_photos ["photos"] (some [entryA]) ["dest"] "JPEG" 80).result
        = Except.ok [photoOfRunA] ∧
    ∀ p ∈ [photoOfRunA],
      p.path = ["dest"] ++ ["img", "320"] ∧ p.file_name = "320" := by
  have h : (process_photos ["photos"] (some [entryA]) ["dest"] "JPEG" 80).result
      = Except.ok [photoOfRunA] := by
    simp [process_photos, create_image_directories, TARGET_RESOLUTIONS, find_photos,
      find_photos_list, is_image, filetype_guess, sniffMime, bytesStartWith, jpegMagic,
      pngMagic, entryA, process_loop, process_one, read_description_file, pyStrip,
      isPySpace, read_exif, ExifTags_TAGS, resize_images, resize_images_loop,
      resize_image, SUPPORTED_OUTPUT_TYPES, get_limited_size_eq, is_landscape_orientation,
      FsPath.withSuffix, FsPath.name, nameStem, pyLower, sortPhotos, photoOfRunA,
      except_bind_ok, except_bind_error, except_pure_eq, except_map_ok, except_map_error]
    decide
  refine ⟨h, ?_⟩
  intro p hp
  have := (c10_records_share_directory_map ["photos"] (some [entryA]) ["dest"] "JPEG" 80
      [photoOfRunA] h).1 p hp
  exact ⟨this.2.1, this.2.2⟩

end Phogg
